import Mathlib

set_option linter.unusedVariables false

/-! Verification of the CV-intake pipeline in src/main.py: the LLM gateway
loop with per-model retry and ordered fallback (chat_with_fallback), the
JSON recovery scan (clean_json_string), the structured-extraction fallback
(parse_cv_to_json), and the whitelist post-pass of anonymize_with_whitelist.
Components of the repository that are not part of src/main.py (the
text_anonymizer redaction engine and the interview session driver) are
modelled from the specification and marked as such in their doc comments. -/

/-- Exception values relevant to the gateway loop of src/main.py.
`requestException` stands for Python's requests.exceptions.RequestException,
the class named in the except clause of chat_with_fallback (line 281).
`httpxError` stands for the httpx exception hierarchy: transport errors
raised by httpx.AsyncClient.post and httpx.HTTPStatusError raised by
response.raise_for_status() on a non-2xx status.  The two hierarchies are
disjoint: an httpx error is not a requests.exceptions.RequestException.
`allModelsFailed` is the final RuntimeError of line 288, which wraps the
last recorded exception (None if nothing was ever recorded). -/
inductive PyExc where
  | requestException (msg : String)
  | httpxError (msg : String)
  | allModelsFailed (last : Option PyExc)

/-- Outcome of one HTTP attempt inside the try block of chat_with_fallback:
either the response is 2xx and data["choices"][0]["message"]["content"] is
returned, or some exception is raised (a transport error or the
HTTPStatusError from raise_for_status). -/
inductive AttemptOutcome where
  | success (content : String)
  | raise (e : PyExc)

/-- The class test performed by the except clause at src/main.py line 281:
`except requests.exceptions.RequestException as e`. -/
def isRequestException : PyExc → Bool
  | .requestException _ => true
  | _ => false

/-- Result of running the inner retry loop (`for attempt in range(max_retries)`)
for a single model: either the function terminates (a value is returned or an
uncaught exception propagates), or the retries are exhausted and the outer
loop advances to the next model carrying the last recorded exception. -/
inductive ModelStep where
  | done (r : Except PyExc String)
  | next (last : Option PyExc)

/-- The inner retry loop of chat_with_fallback (src/main.py lines 261-284)
for one model.  `outcome attempt` is what the HTTP attempt with that index
does.  A raised exception is recorded and retried only when it passes the
`except requests.exceptions.RequestException` test; any other exception
(in particular every httpx error) propagates immediately.  The second
component counts the attempts actually issued. -/
def runModel (outcome : Nat → AttemptOutcome) : Nat → Nat → Option PyExc →
    ModelStep × Nat
  | _, 0, last => (ModelStep.next last, 0)
  | attempt, rem + 1, last =>
    match outcome attempt with
    | .success s => (ModelStep.done (Except.ok s), 1)
    | .raise e =>
      if isRequestException e then
        let r := runModel outcome (attempt + 1) rem (some e)
        (r.1, r.2 + 1)
      else (ModelStep.done (Except.error e), 1)

/-- The outer model loop of chat_with_fallback (src/main.py lines 260-288):
iterate the models in order, run the retry loop for each, and finally raise
RuntimeError("All models failed. Last exception: ...") wrapping the last
recorded exception.  The second component counts the attempts issued. -/
def chatLoop (outcome : String → Nat → AttemptOutcome) (max_retries : Nat) :
    List String → Option PyExc → Except PyExc String × Nat
  | [], last => (Except.error (PyExc.allModelsFailed last), 0)
  | m :: rest, last =>
    match runModel (outcome m) 0 max_retries last with
    | (ModelStep.done r, n) => (r, n)
    | (ModelStep.next last2, n) =>
      let r := chatLoop outcome max_retries rest last2
      (r.1, n + r.2)

/-- chat_with_fallback (src/main.py lines 248-288).  The HTTP layer is the
external collaborator, abstracted as `outcome message model attempt`: what
the POST of that message to that model does on that attempt.  Returns the
value the Python coroutine returns, or the exception it raises, together
with the number of attempts issued. -/
def chat_with_fallback (outcome : String → String → Nat → AttemptOutcome)
    (message : String) (models : List String) (max_retries : Nat) :
    Except PyExc String × Nat :=
  chatLoop (outcome message) max_retries models none



/-- clean_json_string (src/main.py lines 290-310), the scan over the
characters of s.  Arguments mirror the Python state: the remaining
characters, the current index `idx`, `brace_count` (an integer: unmatched
closing braces drive it negative) and `start_idx`.  On a closing brace with
the count back at zero and a recorded start, the slice s[start_idx:idx+1]
is returned; if the scan ends without that, the whole string is returned. -/
def cleanAux (s : List Char) : List Char → Nat → Int → Option Nat → List Char
  | [], _, _, _ => s
  | c :: rest, idx, count, start =>
    if c = '\x7b' then
      cleanAux s rest (idx + 1) (count + 1) (if count = 0 then some idx else start)
    else if c = '\x7d' then
      match start with
      | some st =>
        if count - 1 = 0 then (s.drop st).take (idx + 1 - st)
        else cleanAux s rest (idx + 1) (count - 1) (some st)
      | none => cleanAux s rest (idx + 1) (count - 1) none
    else
      cleanAux s rest (idx + 1) count start

/-- clean_json_string (src/main.py lines 290-310): extract the first
top-level brace-balanced block of s, or return s unchanged. -/
def clean_json_string (s : String) : String :=
  String.mk (cleanAux s.data s.data 0 0 none)

/-- Contribution of one character to the running brace depth. -/
def braceVal (c : Char) : Int :=
  if c = '\x7b' then 1 else if c = '\x7d' then -1 else 0

/-- Brace depth accumulated over a character list. -/
def bal (cs : List Char) : Int := (cs.map braceVal).sum

/-- Position i holds an opening brace at top level: the brace depth of the
prefix before it is zero. -/
def topOpen (cs : List Char) (i : Nat) : Prop :=
  cs[i]? = some '\x7b' ∧ bal (cs.take i) = 0

instance (cs : List Char) (i : Nat) : Decidable (topOpen cs i) := by
  unfold topOpen; infer_instance

/-- Executable test for the existence of a top-level balanced brace block:
some opening brace at depth zero is followed by a position where the depth
returns to zero. -/
def hasBlockB (cs : List Char) : Bool :=
  (List.range (cs.length + 1)).any fun j =>
    decide (bal (cs.take j) = 0) && (List.range j).any fun i => decide (topOpen cs i)

/-- A top-level balanced brace block exists in cs. -/
def hasBlock (cs : List Char) : Prop := hasBlockB cs = true

instance (cs : List Char) : Decidable (hasBlock cs) := by
  unfold hasBlock
  infer_instance

theorem hasBlock_iff (cs : List Char) :
    hasBlock cs ↔ ∃ i j, topOpen cs i ∧ i < j ∧ j ≤ cs.length ∧ bal (cs.take j) = 0 := by
  unfold hasBlock hasBlockB
  simp only [List.any_eq_true, List.mem_range, Bool.and_eq_true, decide_eq_true_eq]
  constructor
  · rintro ⟨j, hj, hbal, i, hij, hi⟩
    exact ⟨i, j, hi, hij, by omega, hbal⟩
  · rintro ⟨i, j, hi, hij, hjle, hbal⟩
    exact ⟨j, by omega, hbal, i, hij, hi⟩

theorem clean_json_string_no_braces_eval :
    clean_json_string "no braces at all" = "no braces at all" := rfl

theorem clean_json_string_negative_depth_eval :
    clean_json_string "\x7d\x7b\x7b\x7d\x7d" = "\x7b\x7d" := rfl

theorem hasBlockB_negative_depth_eval : hasBlockB "\x7d\x7b\x7b\x7d\x7d".data = true := by
  decide

theorem hasBlockB_unbalanced_eval : hasBlockB "\x7d\x7b\x7d".data = false := by
  decide

theorem clean_json_string_unbalanced_eval :
    clean_json_string "\x7d\x7b\x7d" = "\x7d\x7b\x7d" := rfl

theorem bal_snoc (l : List Char) (c : Char) : bal (l ++ [c]) = bal l + braceVal c := by
  simp [bal]

/-- Invariant carried by the clean_json_string scan: when no start index is
recorded, no top-level opening brace has been seen yet; when `start_idx = st`
is recorded, st is the first top-level opening brace and the depth has
stayed at least 1 ever since. -/
def scanInv (s : List Char) (idx : Nat) : Option Nat → Prop
  | none => ∀ i < idx, ¬ topOpen s i
  | some st => topOpen s st ∧ (∀ i < st, ¬ topOpen s i) ∧ st < idx ∧
      ∀ j, st < j → j ≤ idx → 1 ≤ bal (s.take j)

theorem braceVal_open : braceVal '\x7b' = 1 := by decide

theorem braceVal_close : braceVal '\x7d' = -1 := by decide

theorem braceVal_other {c : Char} (h1 : ¬ c = '\x7b') (h2 : ¬ c = '\x7d') :
    braceVal c = 0 := by
  unfold braceVal
  rw [if_neg h1, if_neg h2]

theorem topOpen_lt_length {s : List Char} {i : Nat} (h : topOpen s i) :
    i < s.length := by
  rcases List.getElem?_eq_some_iff.mp h.1 with ⟨hlt, _⟩
  exact hlt

theorem cleanAux_spec (s : List Char) (rest : List Char) :
    ∀ (idx : Nat) (count : Int) (start : Option Nat),
      rest = s.drop idx → idx ≤ s.length → count = bal (s.take idx) →
      scanInv s idx start →
      (¬ hasBlock s → cleanAux s rest idx count start = s) ∧
      (hasBlock s → ∃ st n, topOpen s st ∧ (∀ i < st, ¬ topOpen s i) ∧
        cleanAux s rest idx count start = (s.drop st).take n) := by
  induction rest with
  | nil =>
    intro idx count start h1 h2 h3 hinv
    have hlen : s.length ≤ idx := by
      have hl := congrArg List.length h1
      simp [List.length_drop] at hl
      omega
    constructor
    · intro _
      simp [cleanAux]
    · intro hb
      exfalso
      rcases (hasBlock_iff s).mp hb with ⟨i, j, hi, hij, hjle, hbal⟩
      rcases start with _ | st
      · exact hinv i (lt_of_lt_of_le (topOpen_lt_length hi) hlen) hi
      · obtain ⟨hst, hleast, hstidx, hge⟩ := hinv
        have hist : st ≤ i := by
          by_contra hcon
          exact hleast i (by omega) hi
        have := hge j (by omega) (by omega)
        omega
  | cons c rest ih =>
    intro idx count start h1 h2 h3 hinv
    have hlt : idx < s.length := by
      have hl := congrArg List.length h1
      simp [List.length_drop] at hl
      omega
    have hcons : s.drop idx = s[idx] :: s.drop (idx + 1) :=
      List.drop_eq_getElem_cons hlt
    have hc : s[idx] = c := by
      rw [hcons] at h1
      exact (List.cons.injEq _ _ _ _ ▸ h1.symm).1
    have hget : s[idx]? = some c := by
      rw [List.getElem?_eq_getElem hlt, hc]
    have hrest : rest = s.drop (idx + 1) := by
      rw [hcons] at h1
      exact (List.cons.injEq _ _ _ _ ▸ h1.symm).2.symm
    have htake : s.take (idx + 1) = s.take idx ++ [c] := by
      rw [List.take_succ, hget]
      rfl
    rcases start with _ | st
    · -- no start index recorded yet
      have hinvN : ∀ i < idx, ¬ topOpen s i := hinv
      by_cases hc1 : c = '\x7b'
      · have hbal1 : bal (s.take (idx + 1)) = count + 1 := by
          rw [htake, bal_snoc, hc1, braceVal_open, ← h3]
        by_cases hc0 : count = 0
        · -- the first top-level opening brace: record idx
          have hstep : cleanAux s (c :: rest) idx count none =
              cleanAux s rest (idx + 1) (count + 1) (some idx) := by
            simp [cleanAux, hc1, hc0]
          rw [hstep]
          apply ih (idx + 1) (count + 1) (some idx) hrest (by omega) hbal1.symm
          refine ⟨⟨by rw [hget, hc1], by rw [← h3]; exact hc0⟩, hinvN, by omega, ?_⟩
          intro j hj1 hj2
          have hj : j = idx + 1 := by omega
          rw [hj, hbal1]
          omega
        · have hstep : cleanAux s (c :: rest) idx count none =
              cleanAux s rest (idx + 1) (count + 1) none := by
            simp [cleanAux, hc1, hc0]
          rw [hstep]
          apply ih (idx + 1) (count + 1) none hrest (by omega) hbal1.symm
          intro i hi
          rcases Nat.lt_succ_iff_lt_or_eq.mp hi with hi' | hi'
          · exact hinvN i hi'
          · intro hto
            apply hc0
            rw [h3, ← hi']
            exact hto.2
      · by_cases hc2 : c = '\x7d'
        · have hbal1 : bal (s.take (idx + 1)) = count - 1 := by
            rw [htake, bal_snoc, hc2, braceVal_close, ← h3]
            omega
          have hstep : cleanAux s (c :: rest) idx count none =
              cleanAux s rest (idx + 1) (count - 1) none := by
            simp [cleanAux, hc1, hc2]
          rw [hstep]
          apply ih (idx + 1) (count - 1) none hrest (by omega) hbal1.symm
          intro i hi
          rcases Nat.lt_succ_iff_lt_or_eq.mp hi with hi' | hi'
          · exact hinvN i hi'
          · intro hto
            apply hc1
            have hg := hto.1
            rw [← hi'] at hget
            rw [hget] at hg
            exact Option.some.inj hg
        · have hbal1 : bal (s.take (idx + 1)) = count := by
            rw [htake, bal_snoc, braceVal_other hc1 hc2, ← h3]
            omega
          have hstep : cleanAux s (c :: rest) idx count none =
              cleanAux s rest (idx + 1) count none := by
            simp [cleanAux, hc1, hc2]
          rw [hstep]
          apply ih (idx + 1) count none hrest (by omega) hbal1.symm
          intro i hi
          rcases Nat.lt_succ_iff_lt_or_eq.mp hi with hi' | hi'
          · exact hinvN i hi'
          · intro hto
            apply hc1
            have hg := hto.1
            rw [← hi'] at hget
            rw [hget] at hg
            exact Option.some.inj hg
    · -- a start index st is recorded
      obtain ⟨hst, hleast, hstidx, hge⟩ := hinv
      have hcount1 : 1 ≤ count := by
        rw [h3]
        exact hge idx hstidx (le_refl idx)
      by_cases hc1 : c = '\x7b'
      · have hbal1 : bal (s.take (idx + 1)) = count + 1 := by
          rw [htake, bal_snoc, hc1, braceVal_open, ← h3]
        have hc0 : ¬ count = 0 := by omega
        have hstep : cleanAux s (c :: rest) idx count (some st) =
            cleanAux s rest (idx + 1) (count + 1) (some st) := by
          simp [cleanAux, hc1, hc0]
        rw [hstep]
        apply ih (idx + 1) (count + 1) (some st) hrest (by omega) hbal1.symm
        refine ⟨hst, hleast, by omega, ?_⟩
        intro j hj1 hj2
        rcases Nat.lt_succ_iff_lt_or_eq.mp (Nat.lt_succ_of_le hj2) with hj' | hj'
        · exact hge j hj1 (by omega)
        · rw [hj', hbal1]
          omega
      · by_cases hc2 : c = '\x7d'
        · have hbal1 : bal (s.take (idx + 1)) = count - 1 := by
            rw [htake, bal_snoc, hc2, braceVal_close, ← h3]
            omega
          by_cases hz : count - 1 = 0
          · -- the scan returns s[st : idx + 1]
            have hstep : cleanAux s (c :: rest) idx count (some st) =
                (s.drop st).take (idx + 1 - st) := by
              simp [cleanAux, hc1, hc2, hz]
            constructor
            · intro hnb
              exfalso
              apply hnb
              apply (hasBlock_iff s).mpr
              exact ⟨st, idx + 1, hst, by omega, by omega, by rw [hbal1]; omega⟩
            · intro _
              exact ⟨st, idx + 1 - st, hst, hleast, hstep⟩
          · have hstep : cleanAux s (c :: rest) idx count (some st) =
                cleanAux s rest (idx + 1) (count - 1) (some st) := by
              simp [cleanAux, hc1, hc2, hz]
            rw [hstep]
            apply ih (idx + 1) (count - 1) (some st) hrest (by omega) hbal1.symm
            refine ⟨hst, hleast, by omega, ?_⟩
            intro j hj1 hj2
            rcases Nat.lt_succ_iff_lt_or_eq.mp (Nat.lt_succ_of_le hj2) with hj' | hj'
            · exact hge j hj1 (by omega)
            · rw [hj', hbal1]
              omega
        · have hbal1 : bal (s.take (idx + 1)) = count := by
            rw [htake, bal_snoc, braceVal_other hc1 hc2, ← h3]
            omega
          have hstep : cleanAux s (c :: rest) idx count (some st) =
              cleanAux s rest (idx + 1) count (some st) := by
            simp [cleanAux, hc1, hc2]
          rw [hstep]
          apply ih (idx + 1) count (some st) hrest (by omega) hbal1.symm
          refine ⟨hst, hleast, by omega, ?_⟩
          intro j hj1 hj2
          rcases Nat.lt_succ_iff_lt_or_eq.mp (Nat.lt_succ_of_le hj2) with hj' | hj'
          · exact hge j hj1 (by omega)
          · rw [hj', hbal1]
            omega

/-- C7: the JSON-recovery step clean_json_string extracts the first
top-level balanced brace block from the model reply by brace-depth
counting, so that for a reply of the form prose, then a JSON object, then
more prose, it yields exactly the JSON object substring, ignoring the
surrounding prose. -/
theorem C7_json_recovery_extracts_first_block :
    clean_json_string
        "Sure! Here is the JSON:\n\x7b\"skills\": [\"Go\"]\x7d\nHope that helps." =
      "\x7b\"skills\": [\"Go\"]\x7d" := rfl

/-- C10: clean_json_string is total (a total Lean function, returning on
every input) and conservative: when the input contains no top-level
balanced brace block (the brace depth never returns to zero after an
opening brace seen at depth zero) it returns the entire input unchanged,
and when such a block exists the returned value is a contiguous substring
of the input beginning at its first top-level opening brace. -/
theorem C10_clean_json_string_total_conservative (s : String) :
    (¬ hasBlock s.data → clean_json_string s = s) ∧
    (hasBlock s.data → ∃ st n, topOpen s.data st ∧ (∀ i < st, ¬ topOpen s.data i) ∧
      (clean_json_string s).data = (s.data.drop st).take n) := by
  have h := cleanAux_spec s.data s.data 0 0 none (by simp) (by simp) (by simp [bal])
    (fun i hi => absurd hi (Nat.not_lt_zero i))
  constructor
  · intro hnb
    show String.mk (cleanAux s.data s.data 0 0 none) = s
    rw [h.1 hnb]
  · intro hb
    rcases h.2 hb with ⟨st, n, hst, hleast, heq⟩
    exact ⟨st, n, hst, hleast, heq⟩

theorem C10_clean_json_string_total_conservative_witness :
    ¬ hasBlock ("no json here".data) ∧ clean_json_string "no json here" = "no json here" :=
  ⟨by decide, (C10_clean_json_string_total_conservative "no json here").1 (by decide)⟩

/-- C1 evidence: evaluating chat_with_fallback on the claim's scenario —
three models, models 1 and 2 failing every request with an httpx transport
error and model 3 succeeding on its first request — the call propagates the
first transport error after a single attempt instead of retrying and
falling back to model 3.  The except clause at src/main.py line 281 catches
requests.exceptions.RequestException, but the requests library is never
used inside the try block; the httpx errors the attempts actually raise are
not of that class, so the retry and fallback path of the loop (and its own
docstring, "Try multiple models in order until one responds successfully")
is never exercised by a failing HTTP attempt. -/
theorem C1_gateway_fallback_code_eval :
    chat_with_fallback
        (fun _ m _ =>
          if m = "model3" then AttemptOutcome.success "content from model3"
          else AttemptOutcome.raise (PyExc.httpxError "transport error"))
        "prompt" ["model1", "model2", "model3"] 2 =
      (Except.error (PyExc.httpxError "transport error"), 1) := rfl

/-- C2 evidence: evaluating chat_with_fallback with every attempt of every
model failing with an httpx transport error: the first error propagates
after exactly one attempt; the RuntimeError("All models failed. ...")
wrapping the last recorded error (line 288) is unreachable on this path,
because the except clause catches requests.exceptions.RequestException
while the attempts raise httpx errors. -/
theorem C2_gateway_exhaustion_code_eval :
    chat_with_fallback (fun _ _ _ => AttemptOutcome.raise (PyExc.httpxError "boom"))
        "prompt" ["model1", "model2"] 3 =
      (Except.error (PyExc.httpxError "boom"), 1) := rfl

/-- Contrast for C1/C2: for exceptions that do pass the
requests.exceptions.RequestException class test, the loop behaves as the
spec describes — all len(models) * max_retries attempts are made and the
final error wraps the last recorded exception.  No such exception can arise
from the httpx calls in the try block. -/
theorem chat_with_fallback_caught_class_path :
    chat_with_fallback (fun _ _ _ => AttemptOutcome.raise (PyExc.requestException "boom"))
        "prompt" ["model1", "model2"] 3 =
      (Except.error (PyExc.allModelsFailed (some (PyExc.requestException "boom"))), 6) := rfl

/-- Contrast for C1: with exceptions of the caught class the fallback
succeeds exactly as the claim describes: 2 * max_retries failed attempts,
then model 3's content. -/
theorem chat_with_fallback_caught_class_fallback :
    chat_with_fallback
        (fun _ m _ =>
          if m = "model3" then AttemptOutcome.success "content from model3"
          else AttemptOutcome.raise (PyExc.requestException "transport error"))
        "prompt" ["model1", "model2", "model3"] 2 =
      (Except.ok "content from model3", 5) := rfl

/-- One pass of Python str.replace for a non-empty pattern: scan left to
right, replacing each non-overlapping occurrence of `old` by `new`.  The
fuel argument bounds the recursion; every step consumes at least one
character, so fuel = length of the scanned list is always enough. -/
def replaceFuel (old new : List Char) : Nat → List Char → List Char
  | 0, s => s
  | _ + 1, [] => []
  | fuel + 1, c :: rest =>
    if (c :: rest).take old.length = old then
      new ++ replaceFuel old new fuel (rest.drop (old.length - 1))
    else
      c :: replaceFuel old new fuel rest

/-- Python str.replace(old, new) on character lists: all non-overlapping
occurrences, scanned left to right.  An empty pattern matches at every
position, including the end (CPython semantics). -/
def pyReplace (s old new : List Char) : List Char :=
  if old.isEmpty then new ++ (s.map fun c => c :: new).flatten
  else replaceFuel old new s.length s

/-- Python str.replace on strings. -/
def pyReplaceStr (s old new : String) : String :=
  String.mk (pyReplace s.data old.data new.data)

/-- The loop body of anonymize_with_whitelist (src/main.py lines 437-441):
iterate over a snapshot of the map's entries (Python's
list(anonymization_map.items()), insertion-ordered); for each entry whose
original is in the whitelist, replace every occurrence of its placeholder
in the working text and delete the entry with that placeholder key from the
live map `acc`. -/
def whitelistGo (wl : List String) :
    List (String × String) → String → List (String × String) →
    String × List (String × String)
  | [], t, acc => (t, acc)
  | e :: rest, t, acc =>
    if e.2 ∈ wl then
      whitelistGo wl rest (pyReplaceStr t e.1 e.2) (acc.eraseP fun x => x.1 == e.1)
    else
      whitelistGo wl rest t acc

/-- The whitelist post-pass of anonymize_with_whitelist (src/main.py lines
437-442), applied to an already-redacted text and its anonymization map
(an insertion-ordered association list, as a Python dict is). -/
def apply_whitelist (text : String) (m : List (String × String))
    (wl : List String) : String × List (String × String) :=
  whitelistGo wl m text m

/-- anonymize_with_whitelist (src/main.py lines 434-442): the redaction
engine `anonymize` (the text_anonymizer library, an external collaborator
of this file) produces the redacted text and the map; the post-pass then
restores whitelisted entries. -/
def anonymize_with_whitelist (anonymize : String → String × List (String × String))
    (text : String) (wl : List String) : String × List (String × String) :=
  let r := anonymize text
  apply_whitelist r.1 r.2 wl

/-- WHITELIST (src/main.py lines 63-246), in the order written there.  The
Python literal is a set, so duplicated literals ("CI/CD", "Rate Limiting",
"IAM", "Postman", "Docker", "Teamwork", "Firewall", "Linux", "Automation",
"API Gateway", "Load Balancing") collapse; list membership is unaffected by
the duplicates, so they are kept as written. -/
def WHITELIST : List String := [
  "FPT University", "Coursera", "English", "Japanese", "Web", "API", "OTP",
  "Google", "Servlets", "JSP", "Time", "Business", "Python", "JavaScript",
  "Java", "C++", "C#", "Ruby", "Go", "Swift", "Kotlin", "React", "Angular",
  "Vuejs", "Nodejs", "Django", "Flask", "Spring", "SQL", "NoSQL", "MongoDB",
  "PostgreSQL", "MySQL", "Git", "Docker", "Kubernetes", "AWS", "Azure",
  "Google Cloud", "Terraform", "Jenkins", "CI/CD", "Critical thinking",
  "Teamwork", "Software", "Automation", "Engineering", "deliver", "QA",
  "Quality", "Assurance", "TensorFlow", "PyTorch", "Keras", "GCP", "Linux",
  "GitHub", "Bitbucket", "Slack", "Zoom", "JIRA", "Confluence", "Redis", "Intern",
  "UK", "",
  "TypeScript", "Rust", "PHP", "Perl", "R", "Scala", "Elixir", "Haskell",
  "Bash", "Shell Script", "MATLAB", "Objective-C", "Fortran", "COBOL",
  "Solidity", "Dart", "Assembly", "VBA", "Prolog", "Scheme", "Lisp",
  "F#", "OCaml", "PowerShell", "Shell",
  "HTML", "CSS", "TailwindCSS", "Bootstrap", "Sass", "Less",
  "Material UI", "Chakra UI", "Next.js", "Nuxt.js", "Svelte", "SvelteKit",
  "Webpack", "Vite", "Rollup", "Gulp", "Babel", "ESLint", "Prettier",
  "Figma", "Responsive Design", "Accessibility", "A11y", "UI", "UX",
  "Design Systems", "Storybook", "Emotion", "Styled Components",
  "Redux", "MobX", "Pinia", "Zustand", "Jest", "Vitest", "Cypress",
  "Playwright", "WebAssembly",
  "Express.js", "FastAPI", "Laravel", "Symfony", "Rails", "ASP.NET",
  "NestJS", "Hapi", "Koa", "tRPC", "Gin", "Fiber", "Actix", "Phoenix",
  "GraphQL", "REST", "gRPC", "OpenAPI", "JWT", "OAuth", "WebSockets",
  "Rate Limiting", "Load Balancing", "Nginx", "Apache", "IIS",
  "Caching", "Session Management", "Cron", "Queues", "RabbitMQ",
  "Kafka", "ActiveMQ", "ZeroMQ", "Redis Streams", "Event Sourcing",
  "CQRS", "Service Mesh", "Istio", "Linkerd",
  "Android", "iOS", "Flutter", "React Native", "SwiftUI",
  "Jetpack Compose", "Xamarin", "KMM", "Cordova", "Ionic",
  "EC2", "S3", "RDS", "ECS", "EKS", "Lambda", "DynamoDB", "API Gateway",
  "CloudWatch", "CloudTrail", "Route53", "IAM", "VPC", "Kinesis",
  "SNS", "SQS", "Elastic Beanstalk", "Glue", "Athena", "Redshift",
  "Aurora", "Fargate", "Elasticache", "Lightsail",
  "Compute Engine", "Cloud Run", "Cloud Functions", "Firestore",
  "BigTable", "BigQuery", "Cloud SQL", "Pub/Sub", "Dataflow",
  "Composer", "Anthos", "GKE",
  "Azure Functions", "AKS", "App Services", "Cosmos DB", "Blob Storage",
  "Azure SQL", "Monitor", "DevOps Pipelines", "Service Bus",
  "CI/CD", "GitOps", "ArgoCD", "FluxCD", "Docker Compose", "Kustomize",
  "Helm", "Prometheus", "Grafana", "ELK", "EFK", "Zabbix", "Nagios",
  "Ansible", "Puppet", "Chef", "SaltStack", "Nomad", "Consul",
  "Vault", "OpenTelemetry", "Jaeger", "Sentry", "PagerDuty",
  "Splunk", "Datadog", "New Relic", "Dynatrace",
  "MariaDB", "CockroachDB", "Cassandra", "SQLite", "Firebird",
  "Oracle", "DB2", "Teradata", "Snowflake",
  "CouchDB", "RethinkDB", "ArangoDB", "Neo4j", "Dgraph",
  "TigerGraph", "TimescaleDB", "InfluxDB", "Prometheus TSDB",
  "Machine Learning", "Deep Learning", "Neural Networks", "Transformers",
  "LLM", "RNN", "CNN", "GAN", "Autoencoder", "Diffusion Models",
  "NLP", "Computer Vision", "Reinforcement Learning",
  "XGBoost", "LightGBM", "CatBoost", "Scikit-Learn",
  "OpenCV", "NLTK", "spaCy", "HuggingFace", "FastAI",
  "MLflow", "Kubeflow", "DataRobot", "Vertex AI",
  "Feature Store", "Model Registry", "ONNX", "Quantization",
  "Pruning", "Distillation", "Model Serving", "Inference Optimization",
  "OWASP", "SQL Injection", "XSS", "CSRF", "RCE", "SSRF", "IDOR",
  "Penetration Testing", "Threat Modeling", "Encryption",
  "Hashing", "AES", "RSA", "TLS", "SSL", "Kerberos",
  "Fuzzing", "Burp Suite", "Nmap", "Metasploit", "Wireshark",
  "Firewall", "WAF", "Antivirus", "EDR", "SIEM", "SOC", "MITRE ATT&CK",
  "Zero Trust", "Identity Access Management", "IAM", "OAuth2", "SAML",
  "Load Balancer", "Reverse Proxy", "Sharding", "Replication",
  "Partitioning", "CAP Theorem", "Consistency", "Durability",
  "Scalability", "Fault Tolerance", "High Availability",
  "Distributed Systems", "Leader Election", "Consensus",
  "Raft", "Paxos", "Gossip Protocol", "Circuit Breaker Pattern",
  "Bulkhead Pattern", "Rate Limiting", "Throttling",
  "Service Discovery", "API Gateway", "Edge Computing",
  "CDN", "Caching Layer", "Event-Driven Architecture",
  "Message Broker", "Failover", "Autoscaling",
  "TCP", "UDP", "IP", "DNS", "DHCP", "HTTP", "HTTPS", "FTP", "SSH",
  "Telnet", "VPN", "Subnetting", "Routing", "Switching",
  "Load Balancing", "Proxy", "NAT", "Firewall",
  "Unit Testing", "Integration Testing", "System Testing",
  "Acceptance Testing", "Regression Testing", "Smoke Testing",
  "Sanity Testing", "Performance Testing", "Load Testing",
  "Stress Testing", "Pen Testing", "API Testing",
  "Selenium", "Appium", "JUnit", "NUnit", "Mocha", "Chai",
  "TestNG", "Allure", "Postman", "Newman",
  "Agile", "Scrum", "Kanban", "Waterfall", "Lean", "OKRs",
  "KPIs", "Sprints", "Backlog", "User Stories",
  "Acceptance Criteria", "Roadmap", "Stakeholders",
  "Project Management", "Product Management",
  "Requirements Engineering", "Risk Management",
  "VS Code", "IntelliJ", "Eclipse", "Android Studio",
  "Xcode", "PyCharm", "Vim", "Emacs", "Postman",
  "Fiddler", "Insomnia", "Swagger", "K6",
  "Windows", "Linux", "macOS", "Ubuntu", "Debian", "Fedora",
  "Arch Linux", "CentOS", "Red Hat", "Alpine Linux",
  "VMware", "VirtualBox", "Hyper-V", "KVM",
  "Docker", "OCI", "runc", "containerd",
  "Communication", "Leadership", "Problem Solving",
  "Teamwork", "Adaptability", "Creativity",
  "Decision Making", "Analytical Thinking",
  "Computer Science", "Information Technology", "Algorithms",
  "Data Structures", "Time Complexity", "Space Complexity",
  "Systems Analysis", "Software Engineering",
  "Quality Engineering", "Scripting", "Automation"]

theorem pyReplaceStr_nonoverlapping_eval : pyReplaceStr "aaa" "aa" "b" = "ba" := rfl

theorem pyReplaceStr_empty_pattern_eval : pyReplaceStr "ab" "" "-" = "-a-b-" := rfl

theorem pair_key_inj :
    ∀ (l : List (String × String)), (l.map Prod.fst).Nodup →
      ∀ x ∈ l, ∀ y ∈ l, x.1 = y.1 → x = y := by
  intro l
  induction l with
  | nil =>
    intro _ x hx
    cases hx
  | cons a t ih =>
    intro hl x hx y hy hxy
    rw [List.map_cons, List.nodup_cons] at hl
    rcases List.mem_cons.mp hx with rfl | hx'
    · rcases List.mem_cons.mp hy with rfl | hy'
      · rfl
      · exact absurd (List.mem_map.mpr ⟨y, hy', hxy.symm⟩) hl.1
    · rcases List.mem_cons.mp hy with rfl | hy'
      · exact absurd (List.mem_map.mpr ⟨x, hx', hxy⟩) hl.1
      · exact ih hl.2 x hx' y hy' hxy

theorem eraseP_key_of_nodup (k : String) :
    ∀ (l : List (String × String)), (l.map Prod.fst).Nodup →
      (l.eraseP fun x => x.1 == k) = l.filter fun x => x.1 != k := by
  intro l
  induction l with
  | nil =>
    intro _
    rfl
  | cons a t ih =>
    intro hl
    rw [List.map_cons, List.nodup_cons] at hl
    by_cases hk : a.1 = k
    · rw [List.eraseP_cons_of_pos (by simp [hk]), List.filter_cons_of_neg (by simp [hk])]
      symm
      apply List.filter_eq_self.mpr
      intro x hx
      have : x.1 ≠ k := by
        intro hcon
        apply hl.1
        rw [hk, ← hcon]
        exact List.mem_map.mpr ⟨x, hx, rfl⟩
      simp [this]
    · rw [List.eraseP_cons_of_neg (by simp [hk]), List.filter_cons_of_pos (by simp [hk])]
      rw [ih hl.2]

theorem whitelistGo_fst (wl : List String) :
    ∀ (es : List (String × String)) (t : String) (acc : List (String × String)),
      (whitelistGo wl es t acc).1 =
        es.foldl (fun u e => if e.2 ∈ wl then pyReplaceStr u e.1 e.2 else u) t := by
  intro es
  induction es with
  | nil =>
    intro t acc
    rfl
  | cons e rest ih =>
    intro t acc
    by_cases hw : e.2 ∈ wl
    · simp only [whitelistGo, if_pos hw, List.foldl_cons]
      exact ih _ _
    · simp only [whitelistGo, if_neg hw, List.foldl_cons]
      exact ih _ _

theorem whitelistGo_snd (wl : List String) :
    ∀ (es : List (String × String)) (t : String) (acc : List (String × String)),
      (acc.map Prod.fst).Nodup → (es.map Prod.fst).Nodup →
      (∀ e ∈ es, e.2 ∈ wl → e ∈ acc) →
      (whitelistGo wl es t acc).2 =
        acc.filter fun x => !(decide (x.2 ∈ wl) && decide (x ∈ es)) := by
  intro es
  induction es with
  | nil =>
    intro t acc hacc _ _
    symm
    apply List.filter_eq_self.mpr
    intro x hx
    simp
  | cons e rest ih =>
    intro t acc hacc hes hsub
    rw [List.map_cons, List.nodup_cons] at hes
    by_cases hw : e.2 ∈ wl
    · have hein : e ∈ acc := hsub e (List.mem_cons_self e rest) hw
      have hkey := eraseP_key_of_nodup e.1 acc hacc
      have hstep : (whitelistGo wl (e :: rest) t acc).2 =
          (whitelistGo wl rest (pyReplaceStr t e.1 e.2)
            (acc.eraseP fun x => x.1 == e.1)).2 := by
        simp only [whitelistGo, if_pos hw]
      rw [hstep, hkey]
      have hacc' : (((acc.filter fun x => x.1 != e.1).map Prod.fst)).Nodup :=
        List.Nodup.sublist (List.Sublist.map Prod.fst (List.filter_sublist acc)) hacc
      have hsub' : ∀ x ∈ rest, x.2 ∈ wl → x ∈ acc.filter fun x => x.1 != e.1 := by
        intro x hx hxwl
        apply List.mem_filter.mpr
        refine ⟨hsub x (List.mem_cons_of_mem e hx) hxwl, ?_⟩
        have hne : x.1 ≠ e.1 := by
          intro hcon
          apply hes.1
          rw [← hcon]
          exact List.mem_map.mpr ⟨x, hx, rfl⟩
        simp [hne]
      rw [ih (pyReplaceStr t e.1 e.2) _ hacc' hes.2 hsub', List.filter_filter]
      apply List.filter_congr
      intro x hx
      by_cases hxe : x = e
      · subst hxe
        simp [hw]
      · have hxkey : x.1 ≠ e.1 := fun hcon => hxe (pair_key_inj acc hacc x hx e hein hcon)
        simp [hxkey, List.mem_cons, hxe]
    · have hstep : (whitelistGo wl (e :: rest) t acc).2 = (whitelistGo wl rest t acc).2 := by
        simp only [whitelistGo, if_neg hw]
      rw [hstep,
        ih t acc hacc hes.2 (fun x hx hxwl => hsub x (List.mem_cons_of_mem e hx) hxwl)]
      apply List.filter_congr
      intro x hx
      by_cases hxe : x = e
      · subst hxe
        simp [hw]
      · simp [List.mem_cons, hxe]

/-- C3: the whitelist post-pass of anonymize_with_whitelist replaces, for
exactly those map entries whose original is an exact (case-sensitive)
member of the whitelist, every occurrence of the placeholder in the text
with the original (Python str.replace, applied entry by entry in map
order) and removes the entry from the map; entries whose original is not
an exact member are left unchanged in both text and map.  The hypothesis
that the placeholders (the map keys) are pairwise distinct holds for every
anonymization map, because a Python dict cannot repeat a key. -/
theorem C3_whitelist_postpass_spec (text : String) (m : List (String × String))
    (wl : List String) (hkeys : (m.map Prod.fst).Nodup) :
    apply_whitelist text m wl =
      (m.foldl (fun u e => if e.2 ∈ wl then pyReplaceStr u e.1 e.2 else u) text,
       m.filter fun e => decide (e.2 ∉ wl)) := by
  have h1 := whitelistGo_fst wl m text m
  have h2 : (whitelistGo wl m text m).2 = m.filter fun e => decide (e.2 ∉ wl) := by
    rw [whitelistGo_snd wl m text m hkeys hkeys (fun e he _ => he)]
    apply List.filter_congr
    intro x hx
    simp [hx, decide_not]
  calc apply_whitelist text m wl
      = ((whitelistGo wl m text m).1, (whitelistGo wl m text m).2) := rfl
    _ = _ := by rw [h1, h2]

theorem C3_whitelist_postpass_spec_witness :
    apply_whitelist "x [P1] y [N1]" [("[P1]", "Python"), ("[N1]", "Alice")] ["Python"] =
      ("x Python y [N1]", [("[N1]", "Alice")]) := by
  rw [C3_whitelist_postpass_spec _ _ _ (by decide)]
  rfl

/-- C4: after one application of the whitelist post-pass with the WHITELIST
of src/main.py, no remaining entry of the returned anonymization map has an
original_text that is a member of the whitelist — every such entry was
removed (and its placeholder restored in the text). -/
theorem C4_no_whitelisted_original_remains (text : String)
    (m : List (String × String)) (hkeys : (m.map Prod.fst).Nodup) :
    ∀ e ∈ (apply_whitelist text m WHITELIST).2, e.2 ∉ WHITELIST := by
  intro e he
  have h2 := whitelistGo_snd WHITELIST m text m hkeys hkeys (fun x hx _ => hx)
  rw [show (apply_whitelist text m WHITELIST).2 = (whitelistGo WHITELIST m text m).2 from rfl,
    h2] at he
  have hm := List.mem_filter.mp he
  intro hcon
  have hb := hm.2
  simp [hcon, hm.1] at hb

set_option maxRecDepth 8000 in
theorem C4_no_whitelisted_original_remains_witness :
    ("[N1]", "Zxq Qxz").2 ∉ WHITELIST :=
  C4_no_whitelisted_original_remains "met [N1] today" [("[N1]", "Zxq Qxz")] (by decide)
    ("[N1]", "Zxq Qxz") (by decide)

theorem whitelistGo_noop (wl : List String) :
    ∀ (es : List (String × String)) (t : String) (acc : List (String × String)),
      (∀ e ∈ es, e.2 ∉ wl) → whitelistGo wl es t acc = (t, acc) := by
  intro es
  induction es with
  | nil =>
    intro t acc _
    rfl
  | cons e rest ih =>
    intro t acc h
    have hw : e.2 ∉ wl := h e (List.mem_cons_self e rest)
    simp only [whitelistGo, if_neg hw]
    exact ih t acc fun x hx => h x (List.mem_cons_of_mem e hx)

/-- C5: the whitelist post-pass is idempotent: applying it a second time to
the (text, map) pair it produced changes nothing, because the first pass
leaves no whitelisted original in the map.  The distinct-keys hypothesis
holds for every anonymization map (a Python dict cannot repeat a key). -/
theorem C5_whitelist_postpass_idempotent (text : String)
    (m : List (String × String)) (wl : List String)
    (hkeys : (m.map Prod.fst).Nodup) :
    apply_whitelist (apply_whitelist text m wl).1 (apply_whitelist text m wl).2 wl =
      apply_whitelist text m wl := by
  have h2 : (apply_whitelist text m wl).2 =
      m.filter (fun e => !(decide (e.2 ∈ wl) && decide (e ∈ m))) :=
    whitelistGo_snd wl m text m hkeys hkeys (fun x hx _ => hx)
  have hall : ∀ e ∈ (apply_whitelist text m wl).2, e.2 ∉ wl := by
    intro e he
    rw [h2] at he
    have hm := List.mem_filter.mp he
    intro hcon
    have hb := hm.2
    simp [hcon, hm.1] at hb
  show whitelistGo wl (apply_whitelist text m wl).2 (apply_whitelist text m wl).1
      (apply_whitelist text m wl).2 = apply_whitelist text m wl
  rw [whitelistGo_noop wl _ _ _ hall]

theorem C5_whitelist_postpass_idempotent_witness :
    apply_whitelist (apply_whitelist "x [P1] y" [("[P1]", "Python")] ["Python"]).1
        (apply_whitelist "x [P1] y" [("[P1]", "Python")] ["Python"]).2 ["Python"] =
      apply_whitelist "x [P1] y" [("[P1]", "Python")] ["Python"] :=
  C5_whitelist_postpass_idempotent "x [P1] y" [("[P1]", "Python")] ["Python"] (by decide)

/-- MODELS (src/main.py lines 52-61): the configured ordered fallback list. -/
def MODELS : List String := [
  "tngtech/deepseek-r1t-chimera:free",
  "openai/gpt-oss-20b:free",
  "mistralai/mistral-7b-instruct:free",
  "qwen/qwen3-235b-a22b:free",
  "mistralai/mistral-small-3.2-24b-instruct",
  "tngtech/deepseek-r1t2-chimera:free",
  "qwen/qwen3-4b:free",
  "x-ai/grok-4.1-fast:free"]

/-- The CV-parsing prompt built by parse_cv_to_json (src/main.py lines
318-351), with cv_text interpolated at the end between triple quotes. -/
def cvPrompt (cv_text : String) : String :=
  "\nYou are a CV parsing assistant.\n\nYou will receive the text of a CV. Some personal information like names, emails, phone numbers, and addresses has already been anonymized. \n\nYour task is to extract structured information from the CV and output it as a JSON object with the following format:\n\n\x7b\n  \"summary\": \"<short professional summary or objective>\",\n  \"skills\": [\"skill1\", \"skill2\", \"...\"],\n  \"languages\": [\"language1\", \"language2\", \"...\"],\n  \"experiences\": [\n    \x7b\n      \"job_title\": \"<Job title>\",\n      \"company\": \"<Company name>\",\n      \"description\": \"<Brief summary of responsibilities and achievements>\"\n    \x7d\n  ],\n  \"certifications\": [\"certification1\", \"certification2\", \"...\"]\n\x7d\n\nRules:\n1. Only include information explicitly mentioned in the CV. Do not make assumptions.\n2. Preserve anonymized placeholders as-is.\n3. Organize experiences and education in chronological order, most recent first.\n4. If a field is not available, leave it as an empty string or empty array/object.\n5. Make JSON valid (use double quotes and proper syntax).\n6. **Output JSON only. Do not include any text outside the JSON object.**\n7. Do not add explanations, notes, or commentary.\n\nHere is the CV text:\n\n\"\"\"" ++ cv_text ++ "\"\"\"\n"

/-- Python JSON values, as json.loads returns them. -/
inductive Json where
  | null
  | bool (b : Bool)
  | num (n : Int)
  | str (s : String)
  | arr (xs : List Json)
  | obj (fields : List (String × Json))

/-- parse_cv_to_json (src/main.py lines 312-361): build the prompt, call
chat_with_fallback on MODELS (default max_retries = 1), recover the first
balanced JSON block with clean_json_string, then json.loads it inside a
try/except that falls back to the empty dict on json.JSONDecodeError.
json.loads is the external collaborator `loads`; `none` is it raising
JSONDecodeError.  An exception from chat_with_fallback propagates. -/
def parse_cv_to_json (outcome : String → String → Nat → AttemptOutcome)
    (loads : String → Option Json) (cv_text : String) : Except PyExc Json :=
  match (chat_with_fallback outcome (cvPrompt cv_text) MODELS 1).1 with
  | .error e => .error e
  | .ok answer =>
    match loads (clean_json_string answer) with
    | some j => .ok j
    | none => .ok (Json.obj [])

/-- C8: for every model reply from which no valid JSON can be parsed (in
particular a reply containing no balanced braces at all, on which
clean_json_string returns the reply itself), parse_cv_to_json does not
raise to its caller: it returns the empty dict, Python's `\x7b\x7d`. -/
theorem C8_parse_cv_to_json_degrades_gracefully
    (outcome : String → String → Nat → AttemptOutcome)
    (loads : String → Option Json) (cv_text answer : String)
    (hok : (chat_with_fallback outcome (cvPrompt cv_text) MODELS 1).1 =
      Except.ok answer)
    (hbad : loads (clean_json_string answer) = none) :
    parse_cv_to_json outcome loads cv_text = Except.ok (Json.obj []) := by
  unfold parse_cv_to_json
  rw [hok]
  show (match loads (clean_json_string answer) with
    | some j => Except.ok j
    | none => Except.ok (Json.obj [])) = Except.ok (Json.obj [])
  rw [hbad]

theorem C8_parse_cv_to_json_degrades_gracefully_witness :
    parse_cv_to_json (fun _ _ _ => AttemptOutcome.success "no json in this reply")
        (fun _ => none) "some cv text" = Except.ok (Json.obj []) :=
  C8_parse_cv_to_json_degrades_gracefully _ _ "some cv text" "no json in this reply"
    rfl rfl

/-- A piece of the redacted document: a literal run of source characters,
or a placeholder token identified by its ordinal.  Placeholders are
modelled as opaque inert tokens, per the spec's invariant that placeholders
are unique within a document and cannot collide with naturally occurring
text. -/
inductive Chunk where
  | lit (s : List Char)
  | ph (i : Nat)

instance : DecidableEq Chunk := fun a b => by
  cases a <;> cases b <;> first
    | apply isFalse; intro h; exact Chunk.noConfusion h
    | exact decidable_of_iff _ (by rw [Chunk.lit.injEq])
    | exact decidable_of_iff _ (by rw [Chunk.ph.injEq])

/-- The characters of `text` from position s (inclusive) to e (exclusive),
Python's text[s:e]. -/
def sliceCL (text : List Char) (s e : Nat) : List Char :=
  (text.drop s).take (e - s)

/-- Modelled from the spec: the redaction step performed inside the
text_anonymizer library's `anonymize` (called at src/main.py line 435; the
library itself is not under src/).  The entity-recognition model is the
external collaborator; it supplies the detected spans (start, end), which
the spec requires to be non-overlapping and ordered by start offset.  Each
span is replaced by a fresh placeholder (numbered from k) and the
placeholder-to-original mapping is recorded.  `pos` is the position up to
which the text has already been emitted. -/
def detect_and_redact (text : List Char) :
    List (Nat × Nat) → Nat → Nat → List Chunk × List (Nat × List Char)
  | [], pos, _ => ([Chunk.lit (text.drop pos)], [])
  | (s, e) :: rest, pos, k =>
    let r := detect_and_redact text rest e (k + 1)
    (Chunk.lit (sliceCL text pos s) :: Chunk.ph k :: r.1,
     (k, sliceCL text s e) :: r.2)

/-- Look a placeholder up in the anonymization map (first match). -/
def lookupPh (m : List (Nat × List Char)) (i : Nat) : List Char :=
  match m.find? (fun x => x.1 == i) with
  | some x => x.2
  | none => []

/-- Substitute every placeholder of the redacted document with its mapped
original and concatenate. -/
def restore (m : List (Nat × List Char)) : List Chunk → List Char
  | [] => []
  | Chunk.lit s :: rest => s ++ restore m rest
  | Chunk.ph i :: rest => lookupPh m i ++ restore m rest

/-- Well-formedness of a span list, as the spec requires of one detection
pass: spans are within bounds, ordered by start offset and non-overlapping
(`pos` is a lower bound for the next start). -/
def spansWF (len : Nat) : Nat → List (Nat × Nat) → Bool
  | _, [] => true
  | pos, (s, e) :: rest =>
    decide (pos ≤ s) && decide (s ≤ e) && decide (e ≤ len) && spansWF len e rest

theorem detect_and_redact_ph_ge (text : List Char) :
    ∀ (spans : List (Nat × Nat)) (pos k : Nat),
      (∀ c ∈ (detect_and_redact text spans pos k).1, ∀ i, c = Chunk.ph i → k ≤ i) ∧
      (∀ x ∈ (detect_and_redact text spans pos k).2, k ≤ x.1) := by
  intro spans
  induction spans with
  | nil =>
    intro pos k
    constructor
    · intro c hc i hci
      simp [detect_and_redact] at hc
      rw [hc] at hci
      exact Chunk.noConfusion hci
    · intro x hx
      simp [detect_and_redact] at hx
  | cons se rest ih =>
    intro pos k
    obtain ⟨s, e⟩ := se
    constructor
    · intro c hc i hci
      simp only [detect_and_redact, List.mem_cons] at hc
      rcases hc with rfl | rfl | hc
      · exact Chunk.noConfusion hci
      · have := Chunk.ph.inj hci
        omega
      · have := (ih e (k + 1)).1 c hc i hci
        omega
    · intro x hx
      simp only [detect_and_redact, List.mem_cons] at hx
      rcases hx with rfl | hx
      · exact Nat.le_refl k
      · have := (ih e (k + 1)).2 x hx
        omega

theorem restore_skip (j : Nat) (v : List Char) (m : List (Nat × List Char)) :
    ∀ (cs : List Chunk), (∀ i, Chunk.ph i ∈ cs → i ≠ j) →
      restore ((j, v) :: m) cs = restore m cs := by
  intro cs
  induction cs with
  | nil =>
    intro _
    rfl
  | cons c rest ih =>
    intro h
    cases c with
    | lit s =>
      simp only [restore]
      rw [ih fun i hi => h i (List.mem_cons_of_mem _ hi)]
    | ph i =>
      have hij : i ≠ j := h i (List.mem_cons_self _ _)
      simp only [restore]
      rw [ih fun i hi => h i (List.mem_cons_of_mem _ hi)]
      have : lookupPh ((j, v) :: m) i = lookupPh m i := by
        unfold lookupPh
        rw [List.find?_cons_of_neg]
        simp [Ne.symm hij]
      rw [this]

theorem detect_and_redact_roundtrip (text : List Char) :
    ∀ (spans : List (Nat × Nat)) (pos k : Nat),
      spansWF text.length pos spans = true →
      restore (detect_and_redact text spans pos k).2
        (detect_and_redact text spans pos k).1 = text.drop pos := by
  intro spans
  induction spans with
  | nil =>
    intro pos k _
    simp [detect_and_redact, restore]
  | cons se rest ih =>
    intro pos k hwf
    obtain ⟨s, e⟩ := se
    simp only [spansWF, Bool.and_eq_true, decide_eq_true_eq] at hwf
    obtain ⟨⟨⟨hps, hse⟩, hel⟩, hwf'⟩ := hwf
    simp only [detect_and_redact, restore]
    have hlook : lookupPh ((k, sliceCL text s e) :: (detect_and_redact text rest e (k + 1)).2) k
        = sliceCL text s e := by
      unfold lookupPh
      rw [List.find?_cons_of_pos]
      simp
    rw [hlook]
    have hskip : restore ((k, sliceCL text s e) :: (detect_and_redact text rest e (k + 1)).2)
          (detect_and_redact text rest e (k + 1)).1
        = restore (detect_and_redact text rest e (k + 1)).2
          (detect_and_redact text rest e (k + 1)).1 := by
      apply restore_skip
      intro i hi
      have := (detect_and_redact_ph_ge text rest e (k + 1)).1 _ hi i rfl
      omega
    rw [hskip, ih e (k + 1) hwf']
    unfold sliceCL
    have h1 : (text.drop s).take (e - s) ++ text.drop e = text.drop s := by
      have : text.drop e = (text.drop s).drop (e - s) := by
        rw [List.drop_drop]
        congr 1
        omega
      rw [this, List.take_append_drop]
    have h2 : (text.drop pos).take (s - pos) ++ text.drop s = text.drop pos := by
      have : text.drop s = (text.drop pos).drop (s - pos) := by
        rw [List.drop_drop]
        congr 1
        omega
      rw [this, List.take_append_drop]
    rw [h1, h2]

/-- C6: round-trip of redaction (modelled from the spec, since the
text_anonymizer redaction engine called at src/main.py line 435 is not part
of src/): for every input text and every well-formed span list produced by
the detector (non-overlapping, ordered, in bounds), substituting every
placeholder of the redacted output with its mapped original reproduces the
original input text exactly. -/
theorem C6_redaction_roundtrip (text : List Char) (spans : List (Nat × Nat))
    (hwf : spansWF text.length 0 spans = true) :
    restore (detect_and_redact text spans 0 0).2
      (detect_and_redact text spans 0 0).1 = text := by
  rw [detect_and_redact_roundtrip text spans 0 0 hwf]
  exact List.drop_zero text

theorem C6_redaction_roundtrip_witness :
    restore (detect_and_redact "Call Alice at home".data [(5, 10)] 0 0).2
      (detect_and_redact "Call Alice at home".data [(5, 10)] 0 0).1 =
      "Call Alice at home".data :=
  C6_redaction_roundtrip "Call Alice at home".data [(5, 10)] (by decide)

/-- Role of a transcript turn. -/
inductive Role where
  | user
  | assistant
deriving DecidableEq, Repr

/-- Modelled from the spec: the state of the Interview Session Driver
(spec section 4.5; the driver is part of the repository but not of
src/main.py).  `lastProfile` is the last extracted CandidateProfile, absent
in state Empty; `transcript` is the single append-only conversation. -/
structure InterviewState where
  lastProfile : Option String
  transcript : List (Role × String)

/-- The precondition failure the driver must signal when no profile has
been extracted yet. -/
inductive InterviewError where
  | noProfileExtracted
deriving DecidableEq, Repr

/-- Modelled from the spec: the seeding instruction of the driver, embedding
the extracted profile, the interview-structure budget (intro 10 percent,
CV and projects 25 percent, technical 55 percent, mindset and teamwork
10 percent) and the one-question-per-turn constraint. -/
def interviewSeed (profile : String) : String :=
  "You are conducting a CV-grounded interview. Candidate profile: " ++ profile ++
    ". Structure the interview as intro 10 percent, CV and projects 25 percent, technical 55 percent, mindset and teamwork 10 percent. Ask only about fields present and non-empty in the profile. Ask exactly one question per turn. Do not add meta-commentary."

/-- Modelled from the spec: next_question of the Interview Session Driver
(spec section 4.5).  With no extracted profile the driver fails with a
precondition error; from Empty (no answer supplied) it seeds the transcript
with the instruction embedding the profile and asks the gateway (abstracted
as `gw`, applied to the transcript) for the first question; from InProgress
it appends the candidate's answer, asks for the next question, and appends
the reply. -/
def next_question (gw : List (Role × String) → String) (st : InterviewState)
    (answer : Option String) : Except InterviewError (String × InterviewState) :=
  match st.lastProfile with
  | none => Except.error InterviewError.noProfileExtracted
  | some profile =>
    match answer with
    | none =>
      let seeded := [(Role.user, interviewSeed profile)]
      let q := gw seeded
      Except.ok (q, { st with transcript := seeded ++ [(Role.assistant, q)] })
    | some a =>
      let t := st.transcript ++ [(Role.user, a)]
      let q := gw t
      Except.ok (q, { st with transcript := t ++ [(Role.assistant, q)] })

/-- C9: calling next_question before any CandidateProfile has been
extracted (state Empty with no profile) fails with the explicit
precondition error, for every gateway behaviour, transcript and optional
answer — never a crash or a fabricated interview.  (Modelled from the
spec: the interview driver is not part of src/main.py.) -/
theorem C9_next_question_requires_profile (gw : List (Role × String) → String)
    (st : InterviewState) (answer : Option String)
    (hempty : st.lastProfile = none) :
    next_question gw st answer = Except.error InterviewError.noProfileExtracted := by
  unfold next_question
  rw [hempty]

theorem C9_next_question_requires_profile_witness :
    next_question (fun _ => "a question") ⟨none, []⟩ none =
      Except.error InterviewError.noProfileExtracted :=
  C9_next_question_requires_profile (fun _ => "a question") ⟨none, []⟩ none rfl
